import Mathlib

/-!
Verification development for the terminal flappy game (`src/main.rs`).

Modelling conventions (shallow embedding):
* Rust `f64` values and arithmetic are modelled as exact rationals (`ℚ`):
  every claim checked here concerns control flow, exact assignments and
  order comparisons with generous margins, not floating-point rounding.
* Rust `usize`/`u32`/`u64` are modelled as `ℕ`; `u64` wrapping arithmetic
  is taken modulo `2 ^ 64` exactly where the source wraps; `i32`
  coordinates are modelled as `ℤ` and the `as u8` cast as `% 256`.
* The transcendental `f64::sin` used only by the Ready-state idle bob is
  passed to `Game.update` as an explicit function parameter `sinq`.
* The `fundsp` oscillator/envelope nodes (an external crate) are passed
  to `generate_score_samples` as an abstract per-frequency sample
  function `osc`; the repository's own mixing code is modelled exactly.
-/

-- ── Colors (`Rgb`, `Rgb::lerp`) ─────────────────────────────────────────────

/-- The `Rgb` tuple struct: three `u8` channels, modelled as `ℕ` with the
    range invariant `< 256` stated as a hypothesis where needed. -/
structure Rgb where
  r : ℕ
  g : ℕ
  b : ℕ
deriving DecidableEq

/-- One channel of `Rgb::lerp`: `(a as i32 + (b as i32 - a as i32) * t / 256) as u8`.
    Rust `i32` division truncates toward zero (`Int.tdiv`), and the `as u8`
    cast keeps the low 8 bits (`% 256` on the two's-complement value). -/
def lerpChan (a b t : ℕ) : ℕ :=
  (((a : ℤ) + (((b : ℤ) - (a : ℤ)) * (t : ℤ)).tdiv 256) % 256).toNat

/-- `Rgb::lerp(a, b, t_256)`, channelwise `lerpChan`. -/
def Rgb.lerp (a b : Rgb) (t : ℕ) : Rgb :=
  ⟨lerpChan a.r b.r t, lerpChan a.g b.g t, lerpChan a.b b.b t⟩

-- ── Deterministic generator (`pseudo_rand`) ─────────────────────────────────

/-- `pseudo_rand(seed)`: wrapping LCG mix of the 64-bit seed, xor-fold of
    the high 33 bits, reduced mod 1000 and divided by 1000. -/
def pseudo_rand (seed : ℕ) : ℚ :=
  let x := (seed * 6364136223846793005 + 1442695040888963407) % 2 ^ 64
  let bits := (x >>> 33) ^^^ x
  ((bits % 1000 : ℕ) : ℚ) / 1000

-- ── Helper lemmas for the lerp analysis ─────────────────────────────────────

theorem lerpChan_eq_of_le (a b t : ℕ) (hab : a ≤ b) (hb : b < 256) (ht : t ≤ 256) :
    lerpChan a b t = a + (b - a) * t / 256 := by
  unfold lerpChan
  have hd : ((b : ℤ) - (a : ℤ)) = ((b - a : ℕ) : ℤ) := by
    push_cast [hab]; ring
  rw [hd]
  have htd : (((b - a : ℕ) : ℤ) * (t : ℤ)).tdiv 256 = (((b - a) * t / 256 : ℕ) : ℤ) := by
    rw [show (((b - a : ℕ) : ℤ) * (t : ℤ)) = (((b - a) * t : ℕ) : ℤ) from (Nat.cast_mul _ _).symm]
    exact (Int.ofNat_tdiv _ _).symm
  rw [htd]
  have hsum : ((a : ℤ) + (((b - a) * t / 256 : ℕ) : ℤ)) = ((a + (b - a) * t / 256 : ℕ) : ℤ) :=
    (Nat.cast_add a _).symm
  rw [hsum]
  have hlt : a + (b - a) * t / 256 < 256 := by
    have h1 : (b - a) * t / 256 ≤ b - a := by
      have : (b - a) * t ≤ (b - a) * 256 := Nat.mul_le_mul_left _ ht
      calc (b - a) * t / 256 ≤ (b - a) * 256 / 256 := Nat.div_le_div_right this
        _ = b - a := Nat.mul_div_cancel _ (by norm_num)
    omega
  rw [Int.emod_eq_of_lt (by positivity) (by exact_mod_cast hlt)]
  exact Int.toNat_ofNat _

theorem lerpChan_eq_of_ge (a b t : ℕ) (hab : b ≤ a) (ha : a < 256) (ht : t ≤ 256) :
    lerpChan a b t = a - (a - b) * t / 256 := by
  unfold lerpChan
  have hd : ((b : ℤ) - (a : ℤ)) = -(((a - b : ℕ) : ℤ)) := by
    push_cast [hab]; ring
  rw [hd]
  have htd : ((-(((a - b : ℕ) : ℤ))) * (t : ℤ)).tdiv 256 = -((((a - b) * t / 256 : ℕ) : ℤ)) := by
    rw [neg_mul, Int.neg_tdiv]
    congr 1
  rw [htd]
  have hq : (a - b) * t / 256 ≤ a := by
    have h1 : (a - b) * t / 256 ≤ a - b := by
      have : (a - b) * t ≤ (a - b) * 256 := Nat.mul_le_mul_left _ ht
      calc (a - b) * t / 256 ≤ (a - b) * 256 / 256 := Nat.div_le_div_right this
        _ = a - b := Nat.mul_div_cancel _ (by norm_num)
    omega
  have hsum : ((a : ℤ) + -((((a - b) * t / 256 : ℕ) : ℤ))) = ((a - (a - b) * t / 256 : ℕ) : ℤ) := by
    generalize hg : (a - b) * t / 256 = q at hq ⊢
    omega
  rw [hsum]
  have hlt : a - (a - b) * t / 256 < 256 := by omega
  rw [Int.emod_eq_of_lt (by positivity) (by exact_mod_cast hlt)]
  exact Int.toNat_ofNat _

theorem mul255_div256 (d : ℕ) (h1 : 1 ≤ d) (h2 : d ≤ 256) : d * 255 / 256 = d - 1 := by
  have he : d * 255 = (256 - d) + (d - 1) * 256 := by omega
  rw [he, Nat.add_mul_div_right _ _ (by norm_num : 0 < 256), Nat.div_eq_of_lt (by omega)]
  omega

theorem lerpChan_mono_of_le (a b : ℕ) (hab : a ≤ b) (hb : b < 256) {t t' : ℕ}
    (htt : t ≤ t') (ht' : t' ≤ 256) :
    lerpChan a b t ≤ lerpChan a b t' := by
  rw [lerpChan_eq_of_le a b t hab hb (le_trans htt ht'),
      lerpChan_eq_of_le a b t' hab hb ht']
  have : (b - a) * t ≤ (b - a) * t' := Nat.mul_le_mul_left _ htt
  exact Nat.add_le_add_left (Nat.div_le_div_right this) a

theorem lerpChan_anti_of_ge (a b : ℕ) (hab : b ≤ a) (ha : a < 256) {t t' : ℕ}
    (htt : t ≤ t') (ht' : t' ≤ 256) :
    lerpChan a b t' ≤ lerpChan a b t := by
  rw [lerpChan_eq_of_ge a b t hab ha (le_trans htt ht'),
      lerpChan_eq_of_ge a b t' hab ha ht']
  have : (a - b) * t ≤ (a - b) * t' := Nat.mul_le_mul_left _ htt
  exact Nat.sub_le_sub_left (Nat.div_le_div_right this) a

theorem lerpChan_zero (a b : ℕ) (ha : a < 256) (hb : b < 256) : lerpChan a b 0 = a := by
  rcases le_total a b with h | h
  · rw [lerpChan_eq_of_le a b 0 h hb (by norm_num)]; simp
  · rw [lerpChan_eq_of_ge a b 0 h ha (by norm_num)]; simp

theorem lerpChan_256 (a b : ℕ) (ha : a < 256) (hb : b < 256) : lerpChan a b 256 = b := by
  rcases le_total a b with h | h
  · rw [lerpChan_eq_of_le a b 256 h hb le_rfl, Nat.mul_div_cancel _ (by norm_num)]
    omega
  · rw [lerpChan_eq_of_ge a b 256 h ha le_rfl, Nat.mul_div_cancel _ (by norm_num)]
    omega

theorem lerpChan_255 (a b : ℕ) (ha : a < 256) (hb : b < 256) :
    lerpChan a b 255 = if a = b then b else if a < b then b - 1 else b + 1 := by
  rcases lt_trichotomy a b with h | h | h
  · rw [lerpChan_eq_of_le a b 255 h.le hb (by norm_num),
        mul255_div256 (b - a) (by omega) (by omega)]
    simp only [if_neg h.ne, if_pos h]
    omega
  · subst h
    rw [lerpChan_eq_of_le a a 255 le_rfl hb (by norm_num)]
    simp
  · rw [lerpChan_eq_of_ge a b 255 h.le ha (by norm_num),
        mul255_div256 (a - b) (by omega) (by omega)]
    simp only [if_neg h.ne', if_neg (by omega : ¬ a < b)]
    omega

-- ── Claim C1 ────────────────────────────────────────────────────────────────

/-- C1, counterexample: `Rgb::lerp(a, b, 255)` does **not** return `b`
    exactly: at `a = (0,0,0)`, `b = (255,255,255)` it returns `(254,254,254)`. -/
theorem c1_lerp_endpoint_counterexample :
    Rgb.lerp ⟨0, 0, 0⟩ ⟨255, 255, 255⟩ 255 ≠ ⟨255, 255, 255⟩ := by decide

/-- C1, amended: for valid 8-bit channels, `Rgb::lerp(a, b, 0) = a` exactly;
    `Rgb::lerp(a, b, 256) = b` exactly; each channel is monotonic in `t` on
    `[0, 256]` (non-decreasing when `b`'s channel is at least `a`'s,
    non-increasing otherwise); and at the maximum in-range parameter 255 each
    channel is `b`'s channel when the two channels agree and otherwise off by
    exactly one (toward `a`). -/
theorem c1_lerp_endpoints_and_monotone (a b : Rgb)
    (har : a.r < 256) (hag : a.g < 256) (hab : a.b < 256)
    (hbr : b.r < 256) (hbg : b.g < 256) (hbb : b.b < 256) :
    Rgb.lerp a b 0 = a ∧
    Rgb.lerp a b 256 = b ∧
    (∀ t t', t ≤ t' → t' ≤ 256 →
      ((a.r ≤ b.r → lerpChan a.r b.r t ≤ lerpChan a.r b.r t') ∧
       (b.r ≤ a.r → lerpChan a.r b.r t' ≤ lerpChan a.r b.r t)) ∧
      ((a.g ≤ b.g → lerpChan a.g b.g t ≤ lerpChan a.g b.g t') ∧
       (b.g ≤ a.g → lerpChan a.g b.g t' ≤ lerpChan a.g b.g t)) ∧
      ((a.b ≤ b.b → lerpChan a.b b.b t ≤ lerpChan a.b b.b t') ∧
       (b.b ≤ a.b → lerpChan a.b b.b t' ≤ lerpChan a.b b.b t))) ∧
    (lerpChan a.r b.r 255 = if a.r = b.r then b.r else if a.r < b.r then b.r - 1 else b.r + 1) ∧
    (lerpChan a.g b.g 255 = if a.g = b.g then b.g else if a.g < b.g then b.g - 1 else b.g + 1) ∧
    (lerpChan a.b b.b 255 = if a.b = b.b then b.b else if a.b < b.b then b.b - 1 else b.b + 1) := by
  refine ⟨?_, ?_, ?_, ?_, ?_, ?_⟩
  · unfold Rgb.lerp
    rw [lerpChan_zero a.r b.r har hbr, lerpChan_zero a.g b.g hag hbg,
        lerpChan_zero a.b b.b hab hbb]
  · unfold Rgb.lerp
    rw [lerpChan_256 a.r b.r har hbr, lerpChan_256 a.g b.g hag hbg,
        lerpChan_256 a.b b.b hab hbb]
  · intro t t' htt ht'
    exact ⟨⟨fun h => lerpChan_mono_of_le _ _ h hbr htt ht',
            fun h => lerpChan_anti_of_ge _ _ h har htt ht'⟩,
           ⟨fun h => lerpChan_mono_of_le _ _ h hbg htt ht',
            fun h => lerpChan_anti_of_ge _ _ h hag htt ht'⟩,
           ⟨fun h => lerpChan_mono_of_le _ _ h hbb htt ht',
            fun h => lerpChan_anti_of_ge _ _ h hab htt ht'⟩⟩
  · exact lerpChan_255 _ _ har hbr
  · exact lerpChan_255 _ _ hag hbg
  · exact lerpChan_255 _ _ hab hbb

/-- C1, witness: the amended theorem applied at `a = (10, 200, 30)`,
    `b = (20, 100, 30)`. -/
theorem c1_lerp_witness :
    Rgb.lerp ⟨10, 200, 30⟩ ⟨20, 100, 30⟩ 0 = ⟨10, 200, 30⟩ ∧
    Rgb.lerp ⟨10, 200, 30⟩ ⟨20, 100, 30⟩ 256 = ⟨20, 100, 30⟩ ∧
    lerpChan 10 20 100 ≤ lerpChan 10 20 200 ∧
    lerpChan 200 100 200 ≤ lerpChan 200 100 100 ∧
    lerpChan 10 20 255 = 19 ∧
    lerpChan 200 100 255 = 101 ∧
    lerpChan 30 30 255 = 30 := by
  have h := c1_lerp_endpoints_and_monotone ⟨10, 200, 30⟩ ⟨20, 100, 30⟩
    (by decide) (by decide) (by decide) (by decide) (by decide) (by decide)
  refine ⟨h.1, h.2.1, ?_, ?_, ?_, ?_, ?_⟩
  · exact ((h.2.2.1 100 200 (by decide) (by decide)).1).1 (by decide)
  · exact ((h.2.2.1 100 200 (by decide) (by decide)).2.1).2 (by decide)
  · rw [h.2.2.2.1]; decide
  · rw [h.2.2.2.2.1]; decide
  · rw [h.2.2.2.2.2]; decide

theorem pseudo_rand_nonneg (s : ℕ) : 0 ≤ pseudo_rand s := by
  unfold pseudo_rand
  positivity

theorem pseudo_rand_le (s : ℕ) : pseudo_rand s ≤ 999 / 1000 := by
  unfold pseudo_rand
  rw [div_le_div_iff_of_pos_right (by norm_num)]
  have h : (((((s * 6364136223846793005 + 1442695040888963407) % 2 ^ 64) >>> 33) ^^^
      ((s * 6364136223846793005 + 1442695040888963407) % 2 ^ 64)) % 1000) ≤ 999 := by
    have := Nat.mod_lt ((((s * 6364136223846793005 + 1442695040888963407) % 2 ^ 64) >>> 33) ^^^
      ((s * 6364136223846793005 + 1442695040888963407) % 2 ^ 64)) (by norm_num : 0 < 1000)
    omega
  exact_mod_cast h

theorem pseudo_rand_lt_one (s : ℕ) : pseudo_rand s < 1 := by
  have h := pseudo_rand_le s
  linarith

-- ── Claim C4 ────────────────────────────────────────────────────────────────

/-- C4: `pseudo_rand` is a pure function of the seed (equal seeds give equal
    values), its value always lies in `[0, 1)`, and it is literally the stated
    mix: multiply by the fixed odd constant 6364136223846793005, add the fixed
    odd increment 1442695040888963407 (wrapping at `2 ^ 64`), xor-fold the high
    bits (`(x >> 33) ^ x`), reduce mod 1000 and divide by 1000. -/
theorem c4_pseudo_rand_pure_and_in_range (s t : ℕ) :
    (s = t → pseudo_rand s = pseudo_rand t) ∧
    0 ≤ pseudo_rand s ∧ pseudo_rand s < 1 ∧
    pseudo_rand s =
      ((((((s * 6364136223846793005 + 1442695040888963407) % 2 ^ 64) >>> 33) ^^^
          ((s * 6364136223846793005 + 1442695040888963407) % 2 ^ 64)) % 1000 : ℕ) : ℚ)
        / 1000 ∧
    6364136223846793005 % 2 = 1 ∧ 1442695040888963407 % 2 = 1 := by
  exact ⟨fun h => h ▸ rfl, pseudo_rand_nonneg s, pseudo_rand_lt_one s, rfl,
    by norm_num, by norm_num⟩

/-- C4 needs no witness (no hypotheses), but we record a concrete evaluation:
    `pseudo_rand 2 = 581/1000`, the value used by the C5 counterexample. -/
theorem pseudo_rand_two : pseudo_rand 2 = 581 / 1000 := by
  have h : ((((2 * 6364136223846793005 + 1442695040888963407) % 2 ^ 64) >>> 33) ^^^
      ((2 * 6364136223846793005 + 1442695040888963407) % 2 ^ 64)) % 1000 = 581 := by decide
  simp only [pseudo_rand]
  rw [h]
  norm_num

-- ── Pixel buffer (`PixelBuf`) ───────────────────────────────────────────────

/-- The default sky color filling a fresh buffer. -/
def SKY_TOP : Rgb := ⟨70, 180, 200⟩

/-- `PixelBuf`: width, pixel height, and the dense row-major pixel vector. -/
structure PixelBuf where
  w : ℕ
  h : ℕ
  px : List Rgb
deriving DecidableEq

/-- `PixelBuf::new(w, h)`. -/
def PixelBuf.new (w h : ℕ) : PixelBuf :=
  ⟨w, h, List.replicate (w * h) SKY_TOP⟩

/-- `PixelBuf::set(x, y, c)`: guarded write, silently dropped out of bounds.
    Rust `i32` coordinates are modelled as `ℤ`; the guard is the source's
    `x >= 0 && y >= 0 && (x as usize) < w && (y as usize) < h`. -/
def PixelBuf.set (b : PixelBuf) (x y : ℤ) (c : Rgb) : PixelBuf :=
  if 0 ≤ x ∧ 0 ≤ y ∧ x.toNat < b.w ∧ y.toNat < b.h then
    { b with px := b.px.set (y.toNat * b.w + x.toNat) c }
  else b

/-- `PixelBuf::get(x, y)`: direct indexing (the source requires in-bounds
    input; out-of-range reads return a dummy color here where Rust panics). -/
def PixelBuf.get (b : PixelBuf) (x y : ℕ) : Rgb :=
  b.px.getD (y * b.w + x) ⟨0, 0, 0⟩

/-- Inner loop of `fill_rect`: `for dx in 0..w { set(x + dx, y', c) }`.
    A Rust `0..w` range over `i32` runs `w.toNat` times. -/
def fillRow (b : PixelBuf) (x y' : ℤ) (c : Rgb) (n : ℕ) : PixelBuf :=
  (List.range n).foldl (fun b2 (dx : ℕ) => b2.set (x + (dx : ℤ)) y' c) b

/-- Outer loop of `fill_rect`: `for dy in 0..h { inner row loop }`. -/
def fillRows (b : PixelBuf) (x y : ℤ) (c : Rgb) (nw m : ℕ) : PixelBuf :=
  (List.range m).foldl (fun b1 (dy : ℕ) => fillRow b1 x (y + (dy : ℤ)) c nw) b

/-- `PixelBuf::fill_rect(x, y, w, h, c)`: `set` on every covered cell,
    row by row (`dy` outer, `dx` inner), silently clipping. -/
def PixelBuf.fill_rect (b : PixelBuf) (x y w h : ℤ) (c : Rgb) : PixelBuf :=
  fillRows b x y c w.toNat h.toNat

theorem PixelBuf.set_w (b : PixelBuf) (x y : ℤ) (c : Rgb) : (b.set x y c).w = b.w := by
  unfold PixelBuf.set; split <;> rfl

theorem PixelBuf.set_h (b : PixelBuf) (x y : ℤ) (c : Rgb) : (b.set x y c).h = b.h := by
  unfold PixelBuf.set; split <;> rfl

theorem PixelBuf.set_len (b : PixelBuf) (x y : ℤ) (c : Rgb) :
    (b.set x y c).px.length = b.px.length := by
  unfold PixelBuf.set; split
  · exact List.length_set ..
  · rfl

theorem grid_index_inj {w a b a' b' : ℕ} (hb : b < w) (hb' : b' < w)
    (h : a * w + b = a' * w + b') : a = a' ∧ b = b' := by
  rcases Nat.lt_trichotomy a a' with h' | h' | h'
  · exfalso
    have h2 : a * w + w ≤ a' * w := by
      calc a * w + w = (a + 1) * w := by ring
        _ ≤ a' * w := Nat.mul_le_mul_right w (Nat.succ_le_of_lt h')
    omega
  · refine ⟨h', ?_⟩
    subst h'
    omega
  · exfalso
    have h2 : a' * w + w ≤ a * w := by
      calc a' * w + w = (a' + 1) * w := by ring
        _ ≤ a * w := Nat.mul_le_mul_right w (Nat.succ_le_of_lt h')
    omega

theorem PixelBuf.get_set (b : PixelBuf) (x y : ℤ) (c : Rgb) (i j : ℕ)
    (hlen : b.px.length = b.w * b.h) (hi : i < b.w) (hj : j < b.h) :
    (b.set x y c).get i j = if x = (i : ℤ) ∧ y = (j : ℤ) then c else b.get i j := by
  have hidx : j * b.w + i < b.px.length := by
    rw [hlen]
    calc j * b.w + i < j * b.w + b.w := by omega
      _ = (j + 1) * b.w := by ring
      _ ≤ b.h * b.w := Nat.mul_le_mul_right _ (Nat.succ_le_of_lt hj)
      _ = b.w * b.h := Nat.mul_comm _ _
  unfold PixelBuf.set PixelBuf.get
  split
  · next hcond =>
    obtain ⟨hx0, hy0, hxw, hyh⟩ := hcond
    simp only
    by_cases hxy : x = (i : ℤ) ∧ y = (j : ℤ)
    · obtain ⟨hx, hy⟩ := hxy
      have hxi : x.toNat = i := by omega
      have hyj : y.toNat = j := by omega
      rw [if_pos ⟨hx, hy⟩, hxi, hyj,
          List.getD_eq_getElem?_getD, List.getElem?_set, if_pos rfl,
          if_pos (by simpa using hidx)]
      rfl
    · rw [if_neg hxy]
      have hne : y.toNat * b.w + x.toNat ≠ j * b.w + i := by
        intro he
        obtain ⟨h1, h2⟩ := grid_index_inj hxw hi he
        exact hxy ⟨by omega, by omega⟩
      rw [List.getD_eq_getElem?_getD, List.getElem?_set_ne hne,
          ← List.getD_eq_getElem?_getD]
  · next hcond =>
    have hno : ¬(x = (i : ℤ) ∧ y = (j : ℤ)) := by
      intro ⟨hx, hy⟩
      exact hcond ⟨by omega, by omega, by omega, by omega⟩
    rw [if_neg hno]

theorem fillRow_succ (b : PixelBuf) (x y' : ℤ) (c : Rgb) (n : ℕ) :
    fillRow b x y' c (n + 1) = (fillRow b x y' c n).set (x + (n : ℤ)) y' c := by
  unfold fillRow
  rw [List.range_succ, List.foldl_append]
  rfl

theorem fillRow_char (x y' : ℤ) (c : Rgb) (n : ℕ) (b : PixelBuf)
    (hlen : b.px.length = b.w * b.h) (i j : ℕ) (hi : i < b.w) (hj : j < b.h) :
    (fillRow b x y' c n).w = b.w ∧ (fillRow b x y' c n).h = b.h ∧
    (fillRow b x y' c n).px.length = b.px.length ∧
    (fillRow b x y' c n).get i j =
      if x ≤ (i : ℤ) ∧ (i : ℤ) < x + (n : ℤ) ∧ y' = (j : ℤ) then c else b.get i j := by
  induction n with
  | zero =>
    refine ⟨rfl, rfl, rfl, ?_⟩
    rw [if_neg]
    · rfl
    · rintro ⟨h1, h2, -⟩
      omega
  | succ n ih =>
    obtain ⟨hw, hh, hl, hg⟩ := ih
    have hlen' : (fillRow b x y' c n).px.length =
        (fillRow b x y' c n).w * (fillRow b x y' c n).h := by
      rw [hw, hh, hl, hlen]
    rw [fillRow_succ]
    refine ⟨?_, ?_, ?_, ?_⟩
    · rw [PixelBuf.set_w, hw]
    · rw [PixelBuf.set_h, hh]
    · rw [PixelBuf.set_len, hl]
    · rw [PixelBuf.get_set _ _ _ _ _ _ hlen' (by rw [hw]; exact hi) (by rw [hh]; exact hj), hg]
      split_ifs with h1 h2 h3 <;> first | rfl | (exfalso; omega)

theorem fillRows_succ (b : PixelBuf) (x y : ℤ) (c : Rgb) (nw m : ℕ) :
    fillRows b x y c nw (m + 1) = fillRow (fillRows b x y c nw m) x (y + (m : ℤ)) c nw := by
  unfold fillRows
  rw [List.range_succ, List.foldl_append]
  rfl

theorem fillRows_char (x y : ℤ) (c : Rgb) (nw m : ℕ) (b : PixelBuf)
    (hlen : b.px.length = b.w * b.h) (i j : ℕ) (hi : i < b.w) (hj : j < b.h) :
    (fillRows b x y c nw m).w = b.w ∧ (fillRows b x y c nw m).h = b.h ∧
    (fillRows b x y c nw m).px.length = b.px.length ∧
    (fillRows b x y c nw m).get i j =
      if x ≤ (i : ℤ) ∧ (i : ℤ) < x + (nw : ℤ) ∧ y ≤ (j : ℤ) ∧ (j : ℤ) < y + (m : ℤ)
      then c else b.get i j := by
  induction m with
  | zero =>
    refine ⟨rfl, rfl, rfl, ?_⟩
    rw [if_neg]
    · rfl
    · rintro ⟨-, -, h3, h4⟩
      omega
  | succ m ih =>
    obtain ⟨hw, hh, hl, hg⟩ := ih
    have hlen' : (fillRows b x y c nw m).px.length =
        (fillRows b x y c nw m).w * (fillRows b x y c nw m).h := by
      rw [hw, hh, hl, hlen]
    rw [fillRows_succ]
    obtain ⟨hw2, hh2, hl2, hg2⟩ := fillRow_char x (y + (m : ℤ)) c nw _ hlen' i j
      (by rw [hw]; exact hi) (by rw [hh]; exact hj)
    refine ⟨by rw [hw2, hw], by rw [hh2, hh], by rw [hl2, hl], ?_⟩
    rw [hg2, hg]
    split_ifs with h1 h2 h3 <;> first | rfl | (exfalso; omega)

-- ── Claim C8 ────────────────────────────────────────────────────────────────

/-- C8: `set` at any coordinate outside `[0,w) × [0,h)` leaves the buffer
    completely unchanged (and in particular the write is total — the
    out-of-bounds index is never accessed); consequently `fill_rect` on any
    rectangle writes exactly the covered in-bounds cells (which receive `c`)
    and leaves every other cell and the dimensions unchanged, silently
    dropping the out-of-raster part. -/
theorem c8_set_oob_noop_and_fill_rect_clips :
    (∀ (b : PixelBuf) (x y : ℤ) (c : Rgb),
      ¬(0 ≤ x ∧ x < (b.w : ℤ) ∧ 0 ≤ y ∧ y < (b.h : ℤ)) → b.set x y c = b) ∧
    (∀ (b : PixelBuf) (x y w h : ℤ) (c : Rgb), b.px.length = b.w * b.h →
      ∀ i j : ℕ, i < b.w → j < b.h →
        (b.fill_rect x y w h c).w = b.w ∧ (b.fill_rect x y w h c).h = b.h ∧
        (b.fill_rect x y w h c).px.length = b.px.length ∧
        (b.fill_rect x y w h c).get i j =
          if x ≤ (i : ℤ) ∧ (i : ℤ) < x + w ∧ y ≤ (j : ℤ) ∧ (j : ℤ) < y + h then c
          else b.get i j) := by
  constructor
  · intro b x y c hout
    unfold PixelBuf.set
    rw [if_neg]
    intro ⟨h1, h2, h3, h4⟩
    exact hout ⟨h1, by omega, h2, by omega⟩
  · intro b x y w h c hlen i j hi hj
    obtain ⟨hw, hh, hl, hg⟩ := fillRows_char x y c w.toNat h.toNat b hlen i j hi hj
    refine ⟨hw, hh, hl, ?_⟩
    show (fillRows b x y c w.toNat h.toNat).get i j = _
    have hiff : (x ≤ (i : ℤ) ∧ (i : ℤ) < x + ((w.toNat : ℕ) : ℤ) ∧
        y ≤ (j : ℤ) ∧ (j : ℤ) < y + ((h.toNat : ℕ) : ℤ)) ↔
        (x ≤ (i : ℤ) ∧ (i : ℤ) < x + w ∧ y ≤ (j : ℤ) ∧ (j : ℤ) < y + h) := by
      omega
    rw [hg, if_congr hiff rfl rfl]

/-- C8, witness: on a concrete 2×2 buffer, an out-of-bounds `set` is the
    identity, and a 5×5 `fill_rect` anchored at (1,1) paints cell (1,1) but
    leaves cell (0,0) untouched. -/
theorem c8_witness :
    (PixelBuf.new 2 2).set 3 0 ⟨255, 0, 0⟩ = PixelBuf.new 2 2 ∧
    ((PixelBuf.new 2 2).fill_rect 1 1 5 5 ⟨255, 0, 0⟩).get 1 1 = ⟨255, 0, 0⟩ ∧
    ((PixelBuf.new 2 2).fill_rect 1 1 5 5 ⟨255, 0, 0⟩).get 0 0 = SKY_TOP := by
  refine ⟨c8_set_oob_noop_and_fill_rect_clips.1 (PixelBuf.new 2 2) 3 0 _ (by decide), ?_, ?_⟩
  · have hg := (c8_set_oob_noop_and_fill_rect_clips.2 (PixelBuf.new 2 2) 1 1 5 5
      ⟨255, 0, 0⟩ (by decide) 1 1 (by decide) (by decide)).2.2.2
    rw [hg, if_pos (by decide)]
  · have hg := (c8_set_oob_noop_and_fill_rect_clips.2 (PixelBuf.new 2 2) 1 1 5 5
      ⟨255, 0, 0⟩ (by decide) 0 0 (by decide) (by decide)).2.2.2
    rw [hg, if_neg (by decide)]
    decide

-- ── Half-block renderer (`PixelBuf::render`) ────────────────────────────────

/-- A terminal styling/print directive queued by `render`. -/
inductive Directive where
  | moveTo (col row : ℕ)
  | setFg (c : Rgb)
  | setBg (c : Rgb)
  | print (ch : Char)
  | reset
  | crlf
deriving DecidableEq

/-- The renderer's tracked color state: `prev_fg`/`prev_bg` are the last
    emitted colors, `need_fg`/`need_bg` the "forced re-emission" flags. -/
structure RState where
  prev_fg : Rgb
  prev_bg : Rgb
  need_fg : Bool
  need_bg : Bool
deriving DecidableEq

/-- Initial renderer state: dummy `Rgb(0,0,0)` colors, both needs set. -/
def initRState : RState := ⟨⟨0, 0, 0⟩, ⟨0, 0, 0⟩, true, true⟩

/-- One column iteration of `render`'s inner loop: compare the stacked
    pixels `top`/`bot` and emit the cell's directives, updating the state. -/
def renderCell (top bot : Rgb) (st : RState) : List Directive × RState :=
  if top = bot then
    let pr := if st.need_bg ∨ st.prev_bg ≠ top
      then ([Directive.setBg top], { st with prev_bg := top, need_bg := false })
      else ([], st)
    (pr.1 ++ [Directive.print ' '], pr.2)
  else
    let p1 := if st.need_fg ∨ st.prev_fg ≠ top
      then ([Directive.setFg top], { st with prev_fg := top, need_fg := false })
      else ([], st)
    let p2 := if p1.2.need_bg ∨ p1.2.prev_bg ≠ bot
      then ([Directive.setBg bot], { p1.2 with prev_bg := bot, need_bg := false })
      else ([], p1.2)
    (p1.1 ++ p2.1 ++ [Directive.print '▀'], p2.2)

/-- `render`'s inner loop over a list of column indices of row `row`. -/
def renderColsAux (b : PixelBuf) (row : ℕ) : List ℕ → RState → List Directive × RState
  | [], st => ([], st)
  | col :: rest, st =>
    let pr := renderCell (b.get col (row * 2)) (b.get col (row * 2 + 1)) st
    let prs := renderColsAux b row rest pr.2
    (pr.1 ++ prs.1, prs.2)

/-- One full terminal row of `render`: all columns `0 .. w`. -/
def renderRow (b : PixelBuf) (row : ℕ) (st : RState) : List Directive × RState :=
  renderColsAux b row (List.range b.w) st

/-- The row boundary re-arms both "needs" flags (the colors themselves are
    carried over, matching the source's persistent `prev_fg`/`prev_bg`). -/
def nextRowState (st : RState) : RState := { st with need_fg := true, need_bg := true }

/-- `render`'s outer loop over the remaining row indices: a style reset and
    `"\r\n"` separate rows (emitted only when another row follows). -/
def renderRowsAux (b : PixelBuf) : List ℕ → RState → List Directive
  | [], _ => []
  | row :: rest, st =>
    let pr := renderRow b row st
    pr.1 ++ (if rest.isEmpty then []
             else [Directive.reset, Directive.crlf] ++ renderRowsAux b rest (nextRowState pr.2))

/-- `PixelBuf::render`: cursor home, all `h / 2` row pairs, trailing reset. -/
def PixelBuf.render (b : PixelBuf) : List Directive :=
  Directive.moveTo 0 0 :: (renderRowsAux b (List.range (b.h / 2)) initRState ++ [Directive.reset])

/-- Completed-row prefix form of the outer loop (every listed row followed by
    its separator), used to name the state at an interior row. -/
def renderRowSep (b : PixelBuf) : List ℕ → RState → List Directive × RState
  | [], st => ([], st)
  | row :: rest, st =>
    let pr := renderRow b row st
    let prs := renderRowSep b rest (nextRowState pr.2)
    (pr.1 ++ [Directive.reset, Directive.crlf] ++ prs.1, prs.2)

/-- The renderer state at the start of terminal row `row`. -/
def rowStartState (b : PixelBuf) (row : ℕ) : RState :=
  (renderRowSep b (List.range row) initRState).2

/-- The renderer state reached just before emitting cell `(row, col)`. -/
def stateAt (b : PixelBuf) (row col : ℕ) : RState :=
  (renderColsAux b row (List.range col) (rowStartState b row)).2

/-- The directives `render` emits for cell `(row, col)`. -/
def cellDirs (b : PixelBuf) (row col : ℕ) : List Directive :=
  (renderCell (b.get col (row * 2)) (b.get col (row * 2 + 1)) (stateAt b row col)).1

/-- The renderer state right after cell `(row, col)`. -/
def cellAfter (b : PixelBuf) (row col : ℕ) : RState :=
  (renderCell (b.get col (row * 2)) (b.get col (row * 2 + 1)) (stateAt b row col)).2

/-- Everything `render` emits before cell `(row, col)`. -/
def dirsBefore (b : PixelBuf) (row col : ℕ) : List Directive :=
  Directive.moveTo 0 0 :: ((renderRowSep b (List.range row) initRState).1 ++
    (renderColsAux b row (List.range col) (rowStartState b row)).1)

/-- The rest of row `row` after cell `(row, col)`. -/
def rowTail (b : PixelBuf) (row col : ℕ) : List Directive × RState :=
  renderColsAux b row (List.range' (col + 1) (b.w - (col + 1))) (cellAfter b row col)

/-- Everything `render` emits after cell `(row, col)`. -/
def dirsAfter (b : PixelBuf) (row col : ℕ) : List Directive :=
  (rowTail b row col).1 ++
    (if row + 1 < b.h / 2 then
      [Directive.reset, Directive.crlf] ++
        renderRowsAux b (List.range' (row + 1) (b.h / 2 - (row + 1)))
          (nextRowState (rowTail b row col).2)
     else []) ++ [Directive.reset]

/-- Whether a directive list contains any foreground-color-set directive. -/
def hasSetFg (l : List Directive) : Bool :=
  l.any fun d => match d with | Directive.setFg _ => true | _ => false

/-- Whether a directive list contains any background-color-set directive. -/
def hasSetBg (l : List Directive) : Bool :=
  l.any fun d => match d with | Directive.setBg _ => true | _ => false

theorem renderColsAux_append (b : PixelBuf) (row : ℕ) (l1 l2 : List ℕ) (st : RState) :
    renderColsAux b row (l1 ++ l2) st =
      ((renderColsAux b row l1 st).1 ++
        (renderColsAux b row l2 (renderColsAux b row l1 st).2).1,
       (renderColsAux b row l2 (renderColsAux b row l1 st).2).2) := by
  induction l1 generalizing st with
  | nil => simp [renderColsAux]
  | cons c rest ih =>
    simp only [List.cons_append, renderColsAux, List.append_eq, ih, List.append_assoc]

theorem renderRowsAux_split (b : PixelBuf) (l1 l2 : List ℕ) (st : RState) (h2 : l2 ≠ []) :
    renderRowsAux b (l1 ++ l2) st =
      (renderRowSep b l1 st).1 ++ renderRowsAux b l2 (renderRowSep b l1 st).2 := by
  induction l1 generalizing st with
  | nil => simp [renderRowSep]
  | cons r rest ih =>
    have hne : (rest ++ l2).isEmpty = false := by
      rcases l2 with - | ⟨a, l2'⟩
      · exact absurd rfl h2
      · rcases rest <;> rfl
    simp only [List.cons_append, renderRowsAux, renderRowSep, List.append_eq, hne,
      Bool.false_eq_true, if_false, ih, List.append_assoc, List.nil_append]

theorem range_split (k n : ℕ) (h : k < n) :
    List.range n = List.range k ++ k :: List.range' (k + 1) (n - (k + 1)) := by
  have h1 : k :: List.range' (k + 1) (n - (k + 1)) = List.range' k (n - k) := by
    rw [show n - k = (n - (k + 1)) + 1 by omega, List.range'_succ]
  have h2 := List.range'_append 0 k (n - k) 1
  simp only [one_mul, Nat.zero_add] at h2
  rw [List.range_eq_range', List.range_eq_range' k, h1, h2, show n - k + k = n by omega]

theorem renderColsAux_cons (b : PixelBuf) (row c : ℕ) (rest : List ℕ) (st : RState) :
    renderColsAux b row (c :: rest) st =
      ((renderCell (b.get c (row * 2)) (b.get c (row * 2 + 1)) st).1 ++
        (renderColsAux b row rest
          (renderCell (b.get c (row * 2)) (b.get c (row * 2 + 1)) st).2).1,
       (renderColsAux b row rest
          (renderCell (b.get c (row * 2)) (b.get c (row * 2 + 1)) st).2).2) := rfl

theorem renderRowsAux_cons (b : PixelBuf) (r : ℕ) (rest : List ℕ) (st : RState) :
    renderRowsAux b (r :: rest) st =
      (renderRow b r st).1 ++ (if rest.isEmpty then []
        else [Directive.reset, Directive.crlf] ++
          renderRowsAux b rest (nextRowState (renderRow b r st).2)) := rfl

theorem renderCell_uniform (top bot : Rgb) (st : RState) (h : top = bot) :
    renderCell top bot st =
      ((if st.need_bg ∨ st.prev_bg ≠ top then [Directive.setBg top] else []) ++
         [Directive.print ' '],
       if st.need_bg ∨ st.prev_bg ≠ top
         then { st with prev_bg := top, need_bg := false } else st) := by
  unfold renderCell
  rw [if_pos h]
  by_cases hc : st.need_bg ∨ st.prev_bg ≠ top <;> simp [hc]

-- ── Claim C6 ────────────────────────────────────────────────────────────────

/-- C6: for a raster cell whose two stacked pixels are equal, `render`'s
    directive stream decomposes around that cell, the cell contributes no
    foreground-color-set directive, and it contributes a background-color-set
    directive exactly when the state reached at that point (which in
    particular is re-armed to "unknown" at the start of each terminal row
    after the reset/newline) either has the forced flag set or records a
    different active background color. -/
theorem c6_render_uniform_cell (b : PixelBuf) (row col : ℕ)
    (hr : row < b.h / 2) (hc : col < b.w)
    (huni : b.get col (row * 2) = b.get col (row * 2 + 1)) :
    b.render = dirsBefore b row col ++ (cellDirs b row col ++ dirsAfter b row col) ∧
    cellDirs b row col =
      (if (stateAt b row col).need_bg ∨ (stateAt b row col).prev_bg ≠ b.get col (row * 2)
       then [Directive.setBg (b.get col (row * 2))] else []) ++ [Directive.print ' '] ∧
    hasSetFg (cellDirs b row col) = false ∧
    hasSetBg (cellDirs b row col) =
      ((stateAt b row col).need_bg ||
        decide ((stateAt b row col).prev_bg ≠ b.get col (row * 2))) := by
  have hcell := renderCell_uniform (b.get col (row * 2)) (b.get col (row * 2 + 1))
    (stateAt b row col) huni
  have hceq : cellDirs b row col =
      (if (stateAt b row col).need_bg ∨ (stateAt b row col).prev_bg ≠ b.get col (row * 2)
       then [Directive.setBg (b.get col (row * 2))] else []) ++ [Directive.print ' '] :=
    congrArg Prod.fst hcell
  refine ⟨?_, hceq, ?_, ?_⟩
  · unfold PixelBuf.render
    rw [range_split row (b.h / 2) hr,
        renderRowsAux_split b (List.range row) _ initRState (List.cons_ne_nil _ _),
        renderRowsAux_cons]
    have hrow : renderRow b row (rowStartState b row) =
        ((renderColsAux b row (List.range col) (rowStartState b row)).1 ++
          (cellDirs b row col ++ (rowTail b row col).1),
         (rowTail b row col).2) := by
      unfold renderRow
      rw [range_split col b.w hc, renderColsAux_append, renderColsAux_cons]
      rfl
    rw [show (renderRowSep b (List.range row) initRState).2 = rowStartState b row from rfl,
        hrow]
    by_cases hlast : row + 1 < b.h / 2
    · have hne : (List.range' (row + 1) (b.h / 2 - (row + 1))).isEmpty = false := by
        rw [show b.h / 2 - (row + 1) = (b.h / 2 - (row + 1) - 1) + 1 by omega,
            List.range'_succ]
        rfl
      unfold dirsBefore dirsAfter
      rw [hne]
      simp only [Bool.false_eq_true, if_false, if_pos hlast, List.append_assoc,
        List.cons_append, List.nil_append]
    · have hzero : b.h / 2 - (row + 1) = 0 := by omega
      unfold dirsBefore dirsAfter
      rw [hzero]
      simp only [List.range', List.isEmpty_nil, if_true, if_neg hlast, List.append_nil,
        List.append_assoc, List.cons_append, List.nil_append]
  · rw [hceq]
    by_cases hcond : (stateAt b row col).need_bg ∨
        (stateAt b row col).prev_bg ≠ b.get col (row * 2)
    · rw [if_pos hcond]; rfl
    · rw [if_neg hcond]; rfl
  · rw [hceq]
    by_cases hcond : (stateAt b row col).need_bg ∨
        (stateAt b row col).prev_bg ≠ b.get col (row * 2)
    · rw [if_pos hcond]
      have : ((stateAt b row col).need_bg ||
          decide ((stateAt b row col).prev_bg ≠ b.get col (row * 2))) = true := by
        rcases hcond with h | h
        · simp [h]
        · simp [h]
      rw [this]
      rfl
    · rw [if_neg hcond]
      push_neg at hcond
      obtain ⟨h1, h2⟩ := hcond
      have hb1 : (stateAt b row col).need_bg = false := by
        revert h1; cases (stateAt b row col).need_bg <;> simp
      have hb2 : decide ((stateAt b row col).prev_bg ≠ b.get col (row * 2)) = false := by
        simp [h2]
      rw [hb1, hb2]
      rfl

/-- C6, witness: the theorem applied to a concrete 2×2 buffer whose left
    cell is uniform. -/
theorem c6_render_witness :
    (PixelBuf.mk 2 2 [⟨200, 0, 0⟩, ⟨0, 0, 200⟩, ⟨200, 0, 0⟩, ⟨0, 200, 0⟩]).render =
      dirsBefore (PixelBuf.mk 2 2 [⟨200, 0, 0⟩, ⟨0, 0, 200⟩, ⟨200, 0, 0⟩, ⟨0, 200, 0⟩]) 0 0 ++
      (cellDirs (PixelBuf.mk 2 2 [⟨200, 0, 0⟩, ⟨0, 0, 200⟩, ⟨200, 0, 0⟩, ⟨0, 200, 0⟩]) 0 0 ++
       dirsAfter (PixelBuf.mk 2 2 [⟨200, 0, 0⟩, ⟨0, 0, 200⟩, ⟨200, 0, 0⟩, ⟨0, 200, 0⟩]) 0 0) ∧
    cellDirs (PixelBuf.mk 2 2 [⟨200, 0, 0⟩, ⟨0, 0, 200⟩, ⟨200, 0, 0⟩, ⟨0, 200, 0⟩]) 0 0 =
      [Directive.setBg ⟨200, 0, 0⟩, Directive.print ' '] ∧
    hasSetFg (cellDirs (PixelBuf.mk 2 2
      [⟨200, 0, 0⟩, ⟨0, 0, 200⟩, ⟨200, 0, 0⟩, ⟨0, 200, 0⟩]) 0 0) = false ∧
    hasSetBg (cellDirs (PixelBuf.mk 2 2
      [⟨200, 0, 0⟩, ⟨0, 0, 200⟩, ⟨200, 0, 0⟩, ⟨0, 200, 0⟩]) 0 0) = true := by
  have h := c6_render_uniform_cell
    (PixelBuf.mk 2 2 [⟨200, 0, 0⟩, ⟨0, 0, 200⟩, ⟨200, 0, 0⟩, ⟨0, 200, 0⟩]) 0 0
    (by decide) (by decide) (by decide)
  refine ⟨h.1, ?_, h.2.2.1, ?_⟩
  · rw [h.2.1]; decide
  · rw [h.2.2.2]; decide

-- ── Procedural audio: `generate_score_samples` ──────────────────────────────

/-- Rust's `as usize` cast of a non-negative float expression (truncation,
    saturating at 0), used for sample counts and start offsets. -/
def fToUsize (q : ℚ) : ℕ := (⌊q⌋).toNat

/-- The two score-note frequencies `NOTES: [f32; 2] = [520.0, 680.0]`. -/
def NOTES : List ℚ := [520, 680]

/-- `render_mono` for one enveloped sine note: the `fundsp` node is abstracted
    as a per-frequency sample function `osc`; the count is the source's
    `(sample_rate as f32 * duration) as usize`. -/
def renderTone (osc : ℚ → ℕ → ℚ) (freq : ℚ) (count : ℕ) : List ℚ :=
  (List.range count).map (osc freq)

/-- The additive-mix inner loop of `generate_score_samples`:
    `for (i, s) in tone { let target = start + i;
       if target < total_samples { samples[target] += s; } }`
    (`pos` carries `start + i`). -/
def addToneAux (total : ℕ) : ℕ → List ℚ → List ℚ → List ℚ
  | _, [], acc => acc
  | pos, s :: rest, acc =>
    addToneAux total (pos + 1) rest
      (if pos < total then acc.set pos (acc.getD pos 0 + s) else acc)

/-- `generate_score_samples(sample_rate)` with the oscillator/envelope node
    abstracted as `osc`. -/
def generate_score_samples (osc : ℚ → ℕ → ℚ) (sample_rate : ℕ) : List ℚ :=
  let note_gap : ℚ := 1 / 10
  let note_len : ℚ := 15 / 100
  let total_duration := note_gap * ((NOTES.length : ℚ) - 1) + note_len
  let total_samples := fToUsize ((sample_rate : ℚ) * total_duration)
  NOTES.enum.foldl
    (fun samples p =>
      let start := fToUsize (note_gap * (p.1 : ℚ) * (sample_rate : ℚ))
      let tone := renderTone osc p.2 (fToUsize ((sample_rate : ℚ) * note_len))
      addToneAux total_samples start tone samples)
    (List.replicate total_samples (0 : ℚ))

theorem addToneAux_length (total : ℕ) (tone : List ℚ) (pos : ℕ) (acc : List ℚ) :
    (addToneAux total pos tone acc).length = acc.length := by
  induction tone generalizing pos acc with
  | nil => rfl
  | cons s rest ih =>
    unfold addToneAux
    rw [ih]
    split
    · exact List.length_set ..
    · rfl

theorem addToneAux_getD (total : ℕ) (tone : List ℚ) (pos : ℕ) (acc : List ℚ)
    (j : ℕ) (hj : j < total) (hacc : acc.length = total) :
    (addToneAux total pos tone acc).getD j 0 =
      acc.getD j 0 +
        (if pos ≤ j ∧ j - pos < tone.length then tone.getD (j - pos) 0 else 0) := by
  induction tone generalizing pos acc with
  | nil =>
    rw [show addToneAux total pos [] acc = acc from rfl, if_neg (by simp)]
    exact (add_zero _).symm
  | cons s rest ih =>
    unfold addToneAux
    have hlen' : (if pos < total then acc.set pos (acc.getD pos 0 + s) else acc).length
        = total := by
      split
      · rw [List.length_set]; exact hacc
      · exact hacc
    rw [ih (pos + 1) _ hlen']
    by_cases hpj : pos = j
    · subst hpj
      have hset : (if pos < total then acc.set pos (acc.getD pos 0 + s) else acc).getD pos 0
          = acc.getD pos 0 + s := by
        rw [if_pos hj, List.getD_eq_getElem?_getD, List.getElem?_set, if_pos rfl,
            if_pos (by omega : pos < acc.length)]
        rfl
      rw [hset, if_neg (by omega), if_pos ⟨le_rfl, by simp⟩]
      simp only [Nat.sub_self, List.getD_cons_zero]
      ring
    · have hset : (if pos < total then acc.set pos (acc.getD pos 0 + s) else acc).getD j 0
          = acc.getD j 0 := by
        split
        · rw [List.getD_eq_getElem?_getD, List.getElem?_set_ne hpj,
              ← List.getD_eq_getElem?_getD]
        · rfl
      rw [hset]
      by_cases hlt : pos < j
      · have h1 : (pos + 1 ≤ j ∧ j - (pos + 1) < rest.length) ↔
            (pos ≤ j ∧ j - pos < rest.length + 1) := by omega
        by_cases hc : pos + 1 ≤ j ∧ j - (pos + 1) < rest.length
        · rw [if_pos hc, if_pos (by simp only [List.length_cons]; omega :
            pos ≤ j ∧ j - pos < (s :: rest).length)]
          have : j - pos = (j - (pos + 1)) + 1 := by omega
          rw [this, List.getD_cons_succ]
        · rw [if_neg hc, if_neg (by simp only [List.length_cons]; omega)]
      · have hgt : j < pos := by omega
        rw [if_neg (by omega), if_neg (by omega)]

theorem replicate_getD_zero (n i : ℕ) : (List.replicate n (0 : ℚ)).getD i 0 = 0 := by
  rcases Nat.lt_or_ge i n with h | h
  · rw [List.getD_eq_getElem _ _ (by simpa using h)]
    exact List.getElem_replicate ..
  · exact List.getD_eq_default _ _ (by simpa using h)

theorem renderTone_length (osc : ℚ → ℕ → ℚ) (freq : ℚ) (count : ℕ) :
    (renderTone osc freq count).length = count := by
  unfold renderTone
  rw [List.length_map, List.length_range]

theorem renderTone_getD (osc : ℚ → ℕ → ℚ) (freq : ℚ) (count k : ℕ) (hk : k < count) :
    (renderTone osc freq count).getD k 0 = osc freq k := by
  unfold renderTone
  rw [List.getD_eq_getElem _ _ (by rw [List.length_map, List.length_range]; exact hk)]
  simp

theorem generate_score_samples_eq (osc : ℚ → ℕ → ℚ) (rate : ℕ) :
    generate_score_samples osc rate =
      addToneAux (fToUsize ((rate : ℚ) * (1 / 4))) (fToUsize ((1 / 10 : ℚ) * (rate : ℚ)))
        (renderTone osc 680 (fToUsize ((rate : ℚ) * (15 / 100))))
        (addToneAux (fToUsize ((rate : ℚ) * (1 / 4))) 0
          (renderTone osc 520 (fToUsize ((rate : ℚ) * (15 / 100))))
          (List.replicate (fToUsize ((rate : ℚ) * (1 / 4))) (0 : ℚ))) := by
  unfold generate_score_samples
  have henum : NOTES.enum = [(0, (520 : ℚ)), (1, 680)] := rfl
  rw [henum]
  simp only [List.foldl_cons, List.foldl_nil, NOTES, List.length_cons, List.length_nil]
  norm_num
  simp only [show fToUsize 0 = 0 from by norm_num [fToUsize]]

-- ── Claim C9 ────────────────────────────────────────────────────────────────

/-- C9: the score buffer's length is exactly the combined span of the two
    notes (0.1 s gap + 0.15 s note = 0.25 s of samples); before the second
    tone's 0.1 s start offset only the first tone is present; and in the
    overlap region the output equals the **sum** of the two tones' samples
    (added, not overwritten), the second tone indexed from its 0.1 s start. -/
theorem c9_score_samples (osc : ℚ → ℕ → ℚ) (rate : ℕ) :
    (generate_score_samples osc rate).length = fToUsize ((rate : ℚ) * (1 / 4)) ∧
    (∀ i, i < fToUsize ((rate : ℚ) * (1 / 4)) → i < fToUsize ((1 / 10 : ℚ) * (rate : ℚ)) →
      (generate_score_samples osc rate).getD i 0 =
        (if i < fToUsize ((rate : ℚ) * (15 / 100)) then osc 520 i else 0)) ∧
    (∀ i, fToUsize ((1 / 10 : ℚ) * (rate : ℚ)) ≤ i →
      i < fToUsize ((rate : ℚ) * (15 / 100)) → i < fToUsize ((rate : ℚ) * (1 / 4)) →
      (generate_score_samples osc rate).getD i 0 =
        osc 520 i + osc 680 (i - fToUsize ((1 / 10 : ℚ) * (rate : ℚ)))) := by
  have heq := generate_score_samples_eq osc rate
  have hlen1 : (addToneAux (fToUsize ((rate : ℚ) * (1 / 4))) 0
      (renderTone osc 520 (fToUsize ((rate : ℚ) * (15 / 100))))
      (List.replicate (fToUsize ((rate : ℚ) * (1 / 4))) (0 : ℚ))).length
      = fToUsize ((rate : ℚ) * (1 / 4)) := by
    rw [addToneAux_length, List.length_replicate]
  refine ⟨?_, ?_, ?_⟩
  · rw [heq, addToneAux_length, hlen1]
  · intro i hi hstart
    have hno680 : ¬(fToUsize ((1 / 10 : ℚ) * (rate : ℚ)) ≤ i ∧
        i - fToUsize ((1 / 10 : ℚ) * (rate : ℚ)) <
          (renderTone osc 680 (fToUsize ((rate : ℚ) * (15 / 100)))).length) := by
      rw [renderTone_length]
      omega
    rw [heq, addToneAux_getD _ _ _ _ i hi hlen1, if_neg hno680,
        addToneAux_getD _ _ _ _ i hi (by rw [List.length_replicate]),
        replicate_getD_zero]
    by_cases hc : i < fToUsize ((rate : ℚ) * (15 / 100))
    · have h520 : 0 ≤ i ∧
          i - 0 < (renderTone osc 520 (fToUsize ((rate : ℚ) * (15 / 100)))).length := by
        rw [renderTone_length]
        omega
      rw [if_pos h520, if_pos hc, show i - 0 = i from rfl,
          renderTone_getD _ _ _ _ hc]
      ring
    · have h520 : ¬(0 ≤ i ∧
          i - 0 < (renderTone osc 520 (fToUsize ((rate : ℚ) * (15 / 100)))).length) := by
        rw [renderTone_length]
        omega
      rw [if_neg h520, if_neg hc]
      ring
  · intro i hstart hlen hi
    have h520 : 0 ≤ i ∧
        i - 0 < (renderTone osc 520 (fToUsize ((rate : ℚ) * (15 / 100)))).length := by
      rw [renderTone_length]
      omega
    have h680 : fToUsize ((1 / 10 : ℚ) * (rate : ℚ)) ≤ i ∧
        i - fToUsize ((1 / 10 : ℚ) * (rate : ℚ)) <
          (renderTone osc 680 (fToUsize ((rate : ℚ) * (15 / 100)))).length := by
      rw [renderTone_length]
      omega
    rw [heq, addToneAux_getD _ _ _ _ i hi hlen1, if_pos h680,
        addToneAux_getD _ _ _ _ i hi (by rw [List.length_replicate]),
        replicate_getD_zero, if_pos h520, show i - 0 = i from rfl,
        renderTone_getD _ _ _ _ hlen,
        renderTone_getD _ _ _ _
          (by omega : i - fToUsize ((1 / 10 : ℚ) * (rate : ℚ)) <
            fToUsize ((rate : ℚ) * (15 / 100)))]
    ring

/-- C9, witness: at sample rate 40 with the concrete oscillator
    `osc f i = f + i`, the buffer has 10 samples and at index 5
    (inside the overlap, second tone started at sample 4) the output is
    `osc 520 5 + osc 680 1 = 1206`. -/
theorem c9_score_witness :
    (generate_score_samples (fun f i => f + (i : ℚ)) 40).length = 10 ∧
    (generate_score_samples (fun f i => f + (i : ℚ)) 40).getD 2 0 = 522 ∧
    (generate_score_samples (fun f i => f + (i : ℚ)) 40).getD 5 0 = 1206 := by
  have h := c9_score_samples (fun f i => f + (i : ℚ)) 40
  refine ⟨?_, ?_, ?_⟩
  · rw [h.1]; norm_num [fToUsize] <;> decide
  · have h2 := h.2.1 2 (by norm_num [fToUsize] <;> decide) (by norm_num [fToUsize] <;> decide)
    rw [h2, if_pos (by norm_num [fToUsize] <;> decide)]
    norm_num
  · have hf : fToUsize ((1 / 10 : ℚ) * ((40 : ℕ) : ℚ)) = 4 := by
      norm_num [fToUsize] <;> decide
    have h3 := h.2.2 5 (by norm_num [fToUsize] <;> decide) (by norm_num [fToUsize] <;> decide)
      (by norm_num [fToUsize] <;> decide)
    rw [h3, hf]
    norm_num

-- ── Game model (`Pipe`, `State`, `GameEvent`, `Game`) ───────────────────────

/-- An obstacle: horizontal position, vertical gap center, scored flag. -/
structure Pipe where
  x : ℚ
  gap_center : ℚ
  scored : Bool
deriving DecidableEq

/-- The exclusive simulation state variant. -/
inductive State where
  | Ready
  | Playing
  | Dying
  | Dead
deriving DecidableEq

/-- Abstract game events emitted by `update`/`flap`. -/
inductive GameEvent where
  | Flap
  | Score
  | Whoosh
  | Death
deriving DecidableEq

/-- The `Game` struct (all `f64` fields as `ℚ`, `usize`/`u32`/`u64` as `ℕ`). -/
structure Game where
  pw : ℕ
  ph : ℕ
  bird_y : ℚ
  bird_vy : ℚ
  pipes : List Pipe
  score : ℕ
  best : ℕ
  state : State
  frame : ℕ
  ground_x : ℚ
  dead_timer : ℕ
  show_hud : Bool
  scale : ℚ
  ground_h : ℕ
  pipe_w : ℕ
  pipe_gap : ℕ
  bird_x : ℚ
  gravity : ℚ
  flap_vel : ℚ
  pipe_speed : ℚ
  pipe_spacing : ℚ
deriving DecidableEq

/-- `Game::new(pw, ph)`: all resolution-derived constants, then the initial
    `bird_y` assignment (`0.20 = 1/5`, `0.22 = 11/50`, `0.42 = 21/50`,
    `0.4 = 2/5` as exact rationals). -/
def Game.new (pw ph : ℕ) : Game :=
  let scale : ℚ := (ph : ℚ) / 48
  let ground_h := fToUsize (max (8 * scale) 6)
  let pipe_gap := fToUsize (max (15 * scale) 11)
  let pipe_w := fToUsize (min (max (8 * scale) 5) 14)
  { pw := pw
    ph := ph
    bird_y := ((ph - ground_h : ℕ) : ℚ) * (2 / 5)
    bird_vy := 0
    pipes := []
    score := 0
    best := 0
    state := State.Ready
    frame := 0
    ground_x := 0
    dead_timer := 0
    show_hud := false
    scale := scale
    ground_h := ground_h
    pipe_w := pipe_w
    pipe_gap := pipe_gap
    bird_x := max ((pw : ℚ) * (11 / 50)) 10
    gravity := (1 / 5) * scale
    flap_vel := -2 * scale
    pipe_speed := (11 / 10) * max ((pw : ℚ) / 80) (4 / 5)
    pipe_spacing := max ((pw : ℚ) * (21 / 50)) 28 }

/-- `Game::resize`: `*self = Game { best: self.best, ..Game::new(pw, ph) }`. -/
def Game.resize (g : Game) (pw ph : ℕ) : Game :=
  { Game.new pw ph with best := g.best }

/-- `Game::sky_h`: `self.ph - self.ground_h` (`usize` subtraction). -/
def Game.sky_h (g : Game) : ℕ := g.ph - g.ground_h

/-- `Game::flap`: the four-state match (a Dead-state flap performs the
    best-preserving reset; a Dying-state flap is ignored). -/
def Game.flap (g : Game) : Game × Option GameEvent :=
  match g.state with
  | State.Ready =>
    ({ g with
        state := State.Playing
        bird_vy := g.flap_vel }, some GameEvent.Flap)
  | State.Playing =>
    ({ g with bird_vy := g.flap_vel }, some GameEvent.Flap)
  | State.Dead =>
    ({ Game.new g.pw g.ph with best := g.best }, none)
  | State.Dying => (g, none)

/-- One tick of a pipe inside the move loop: `p.x -= speed`, then the
    scored flag is set when the trailing edge has passed the bird. -/
def stepPipe (speed bx : ℚ) (pw : ℕ) (p : Pipe) : Pipe :=
  { p with
    x := p.x - speed
    scored := p.scored || (!p.scored && decide (p.x - speed + (pw : ℚ) < bx)) }

/-- Whether this tick's move newly scores the pipe
    (`!p.scored && p.x + pipe_w < bird_x` evaluated after the move). -/
def scoresNow (speed bx : ℚ) (pw : ℕ) (p : Pipe) : Bool :=
  !p.scored && decide (p.x - speed + (pw : ℚ) < bx)

/-- The `retain` predicate: `p.x + pipe_w + 5.0 > 0.0`. -/
def keepPipe (pw : ℕ) (p : Pipe) : Bool := decide (p.x + (pw : ℚ) + 5 > 0)

/-- Gap-center margin: `pipe_gap as f64 * 0.7`. -/
def spawnMargin (g : Game) : ℚ := (g.pipe_gap : ℚ) * (7 / 10)

/-- `range = sky - margin * 2.0`. -/
def spawnRange (g : Game) : ℚ := (g.sky_h : ℚ) - spawnMargin g * 2

/-- `center = margin + pseudo_rand(frame) * range` (frame already bumped). -/
def spawnCenter (g : Game) : ℚ := spawnMargin g + pseudo_rand g.frame * spawnRange g

/-- The spawn condition: list empty, or last pipe far enough left. -/
def shouldSpawn (g : Game) : Bool :=
  match g.pipes.getLast? with
  | none => true
  | some p => decide (p.x < (g.pw : ℚ) - g.pipe_spacing)

/-- The freshly spawned pipe: `x = pw + 2.0`, unscored. -/
def newPipe (g : Game) : Pipe := ⟨(g.pw : ℚ) + 2, spawnCenter g, false⟩

/-- The Playing-state physics step: `vy += gravity; y += vy; ground_x += speed`. -/
def physStep (g : Game) : Game :=
  { g with
    bird_vy := g.bird_vy + g.gravity
    bird_y := g.bird_y + (g.bird_vy + g.gravity)
    ground_x := g.ground_x + g.pipe_speed }

/-- The pipe list after the spawn phase. -/
def extPipes (g : Game) : List Pipe :=
  g.pipes ++ (if shouldSpawn g then [newPipe g] else [])

/-- `Game::check_collision`: ground/ceiling crossing, or horizontal overlap
    with some pipe while not fully inside its gap interval. -/
def check_collision (g : Game) : Bool :=
  let bx := g.bird_x
  let bird_cy := g.bird_y
  let half_w := 2 * g.scale
  let half_h := (3 / 2) * g.scale
  if bird_cy + half_h ≥ (g.sky_h : ℚ) ∨ bird_cy - half_h < 0 then true
  else
    g.pipes.any fun p =>
      let gap_top := p.gap_center - (g.pipe_gap : ℚ) / 2
      let gap_bot := p.gap_center + (g.pipe_gap : ℚ) / 2
      decide ((bx + half_w > p.x ∧ bx - half_w < p.x + (g.pipe_w : ℚ)) ∧
        (bird_cy - half_h < gap_top ∨ bird_cy + half_h > gap_bot))

/-- `Game::update`: frame bump, then the four-state match. The Ready-state
    sinusoidal bob calls the abstract `sinq` (`0.08 = 2/25`, `0.4 = 2/5`);
    the Playing state runs physics, spawn, move/score, retain, collision
    (`0.6 = 3/5`); Dying clamps at `sky_h - 3`; Dead bumps the dead timer. -/
def Game.update (sinq : ℚ → ℚ) (g0 : Game) : Game × List GameEvent :=
  let g := { g0 with frame := g0.frame + 1 }
  match g.state with
  | State.Ready =>
    ({ g with
        bird_y := ((g.ph - g.ground_h : ℕ) : ℚ) * (2 / 5) +
          sinq ((g.frame : ℚ) * (2 / 25)) * 3 * g.scale
        ground_x := g.ground_x + 1 / 2 }, [])
  | State.Playing =>
    let g1 := physStep g
    let ev1 : List GameEvent := if shouldSpawn g1 then [GameEvent.Whoosh] else []
    let nScored := (extPipes g1).countP (scoresNow g1.pipe_speed g1.bird_x g1.pipe_w)
    let g3 := { g1 with
      pipes := ((extPipes g1).map (stepPipe g1.pipe_speed g1.bird_x g1.pipe_w)).filter
        (keepPipe g1.pipe_w)
      score := g1.score + nScored }
    let ev2 := List.replicate nScored GameEvent.Score
    if check_collision g3 then
      ({ g3 with
          state := State.Dying
          bird_vy := g3.flap_vel * (3 / 5)
          best := if g3.score > g3.best then g3.score else g3.best },
       ev1 ++ (ev2 ++ [GameEvent.Death]))
    else (g3, ev1 ++ ev2)
  | State.Dying =>
    let vy := g.bird_vy + g.gravity
    let y := g.bird_y + vy
    if y ≥ ((g.ph - g.ground_h : ℕ) : ℚ) - 3 then
      ({ g with
          bird_vy := vy
          bird_y := ((g.ph - g.ground_h : ℕ) : ℚ) - 3
          state := State.Dead
          dead_timer := 0 }, [])
    else
      ({ g with
          bird_vy := vy
          bird_y := y }, [])
  | State.Dead => ({ g with dead_timer := g.dead_timer + 1 }, [])

theorem Game_new_80_48_eval :
    Game.new 80 48 =
      ⟨80, 48, 16, 0, [], 0, 0, State.Ready, 0, 0, 0, false,
       1, 8, 8, 15, 88 / 5, 1 / 5, -2, 11 / 10, 168 / 5⟩ := by
  simp only [Game.new, Game.mk.injEq]
  norm_num [fToUsize]
  norm_num [show Int.toNat 8 = 8 from rfl, show Int.toNat 15 = 15 from rfl]

theorem Game_new_80_16_eval :
    Game.new 80 16 =
      ⟨80, 16, 4, 0, [], 0, 0, State.Ready, 0, 0, 0, false,
       1 / 3, 6, 5, 11, 88 / 5, 1 / 15, -2 / 3, 11 / 10, 168 / 5⟩ := by
  simp only [Game.new, Game.mk.injEq]
  norm_num [fToUsize]
  norm_num [show Int.toNat 6 = 6 from rfl, show Int.toNat 5 = 5 from rfl,
    show Int.toNat 11 = 11 from rfl]

/-- The pipe list after the move/score/retain phase of a Playing update. -/
def movedPipes (g : Game) : List Pipe :=
  ((extPipes g).map (stepPipe g.pipe_speed g.bird_x g.pipe_w)).filter (keepPipe g.pipe_w)

/-- The number of pipes newly scored during this tick's move loop. -/
def nScoredOf (g : Game) : ℕ :=
  (extPipes g).countP (scoresNow g.pipe_speed g.bird_x g.pipe_w)

/-- The game after physics, spawn, move/score and retain, before collision. -/
def postMove (g : Game) : Game :=
  { g with
    pipes := movedPipes g
    score := g.score + nScoredOf g }

theorem update_playing_eq (sinq : ℚ → ℚ) (g : Game) (hst : g.state = State.Playing) :
    g.update sinq =
      (if check_collision (postMove (physStep { g with frame := g.frame + 1 })) then
        ({ postMove (physStep { g with frame := g.frame + 1 }) with
            state := State.Dying
            bird_vy := (postMove (physStep { g with frame := g.frame + 1 })).flap_vel * (3 / 5)
            best :=
              if (postMove (physStep { g with frame := g.frame + 1 })).score >
                  (postMove (physStep { g with frame := g.frame + 1 })).best then
                (postMove (physStep { g with frame := g.frame + 1 })).score
              else (postMove (physStep { g with frame := g.frame + 1 })).best },
         (if shouldSpawn (physStep { g with frame := g.frame + 1 }) then [GameEvent.Whoosh]
          else []) ++
           (List.replicate (nScoredOf (physStep { g with frame := g.frame + 1 }))
              GameEvent.Score ++ [GameEvent.Death]))
      else
        (postMove (physStep { g with frame := g.frame + 1 }),
         (if shouldSpawn (physStep { g with frame := g.frame + 1 }) then [GameEvent.Whoosh]
          else []) ++
           List.replicate (nScoredOf (physStep { g with frame := g.frame + 1 }))
             GameEvent.Score)) := by
  unfold Game.update
  rw [show ({ g with frame := g.frame + 1 } : Game).state = State.Playing from hst]
  rfl

-- ── Claim C7 ────────────────────────────────────────────────────────────────

/-- C7: for every game state (mid-Playing included), `resize(pw, ph)` keeps
    the best score, zeroes the score, empties the obstacle list, returns to
    Ready, and recomputes every resolution-derived constant (gravity, impulse
    velocity, scroll speed, gap width, body width, spawn spacing) from the
    new resolution. -/
theorem c7_resize_resets_preserving_best (g : Game) (pw ph : ℕ) :
    (g.resize pw ph).best = g.best ∧
    (g.resize pw ph).score = 0 ∧
    (g.resize pw ph).pipes = [] ∧
    (g.resize pw ph).state = State.Ready ∧
    (g.resize pw ph).gravity = (1 / 5) * ((ph : ℚ) / 48) ∧
    (g.resize pw ph).flap_vel = -2 * ((ph : ℚ) / 48) ∧
    (g.resize pw ph).pipe_speed = (11 / 10) * max ((pw : ℚ) / 80) (4 / 5) ∧
    (g.resize pw ph).pipe_gap = fToUsize (max (15 * ((ph : ℚ) / 48)) 11) ∧
    (g.resize pw ph).pipe_w = fToUsize (min (max (8 * ((ph : ℚ) / 48)) 5) 14) ∧
    (g.resize pw ph).pipe_spacing = max ((pw : ℚ) * (21 / 50)) 28 :=
  ⟨rfl, rfl, rfl, rfl, rfl, rfl, rfl, rfl, rfl, rfl⟩

-- ── Claim C10 ───────────────────────────────────────────────────────────────

/-- C10: a flap in the Playing state is a pure self-transition that only sets
    `bird_vy := flap_vel` and returns a `Flap` event — the record-update form
    shows every other field (state included) unchanged; the Ready→Playing
    flap sets the very same `flap_vel` value. -/
theorem c10_flap_playing_self_transition (g : Game) :
    (g.state = State.Playing →
      g.flap = ({ g with bird_vy := g.flap_vel }, some GameEvent.Flap)) ∧
    (g.state = State.Ready →
      g.flap = ({ g with
          state := State.Playing
          bird_vy := g.flap_vel }, some GameEvent.Flap)) := by
  constructor <;> intro h <;> (unfold Game.flap; rw [h])

/-- C10, witness: the theorem applied at a concrete Playing-state game. -/
theorem c10_flap_witness :
    ({ Game.new 80 48 with state := State.Playing } : Game).flap =
      ({ { Game.new 80 48 with state := State.Playing } with
          bird_vy := ({ Game.new 80 48 with state := State.Playing } : Game).flap_vel },
       some GameEvent.Flap) :=
  (c10_flap_playing_self_transition _).1 rfl

-- ── Claim C2 ────────────────────────────────────────────────────────────────

/-- C2, amended: whenever a Dying-state update step brings the vertical
    position to `sky_h - 3` (three pixels above the ground line) or below,
    the state transitions to Dead, the position is clamped to exactly
    `sky_h - 3` — **not** to the sky height itself — and the dead timer is
    set to 0 on entry. -/
theorem c2_dying_lands_at_sky_minus_three (sinq : ℚ → ℚ) (g : Game)
    (hst : g.state = State.Dying)
    (hy : g.bird_y + (g.bird_vy + g.gravity) ≥ ((g.ph - g.ground_h : ℕ) : ℚ) - 3) :
    (g.update sinq).1.state = State.Dead ∧
    (g.update sinq).1.bird_y = ((g.ph - g.ground_h : ℕ) : ℚ) - 3 ∧
    (g.update sinq).1.dead_timer = 0 := by
  unfold Game.update
  rw [show ({ g with frame := g.frame + 1 } : Game).state = State.Dying from hst]
  simp only [if_pos hy]
  exact ⟨trivial, trivial, trivial⟩

/-- The concrete Dying-state game used for the C2 witness and counterexample:
    80×48 (so `sky_h = 40`), one tick away from the ground. -/
def gDying : Game :=
  { Game.new 80 48 with
    state := State.Dying
    bird_y := 39
    bird_vy := 0 }

/-- C2, witness: the amended theorem applied at `gDying`. -/
theorem c2_dying_witness :
    gDying.state = State.Dying ∧
    (gDying.update (fun _ => 0)).1.state = State.Dead ∧
    (gDying.update (fun _ => 0)).1.bird_y = ((gDying.ph - gDying.ground_h : ℕ) : ℚ) - 3 ∧
    (gDying.update (fun _ => 0)).1.dead_timer = 0 := by
  have hy : gDying.bird_y + (gDying.bird_vy + gDying.gravity) ≥
      ((gDying.ph - gDying.ground_h : ℕ) : ℚ) - 3 := by
    simp only [gDying, Game_new_80_48_eval]
    norm_num
  have h := c2_dying_lands_at_sky_minus_three (fun _ => 0) gDying rfl hy
  exact ⟨rfl, h.1, h.2.1, h.2.2⟩

/-- C2, counterexample: at `gDying` the update does enter Dead, but the
    landing position is `sky_h - 3 = 37`, not the ground line `sky_h = 40`
    the claim asserts. -/
theorem c2_dying_counterexample :
    (gDying.update (fun _ => 0)).1.state = State.Dead ∧
    (gDying.update (fun _ => 0)).1.bird_y ≠ ((gDying.ph - gDying.ground_h : ℕ) : ℚ) := by
  have hg : gDying = ⟨80, 48, 39, 0, [], 0, 0, State.Dying, 0, 0, 0, false,
      1, 8, 8, 15, 88 / 5, 1 / 5, -2, 11 / 10, 168 / 5⟩ := by
    simp only [gDying, Game_new_80_48_eval]
  rw [hg]
  constructor
  · simp only [Game.update]
    norm_num
  · simp only [Game.update]
    norm_num

-- ── Claim C5 ────────────────────────────────────────────────────────────────

/-- C5, amended: during a Playing-state update the pipe list becomes the
    moved/filtered extension of the old list, a spawn (when the spawn
    condition holds) appends exactly one unscored pipe at `x = pw + 2` with
    center `spawnCenter`, and — **provided the resolution satisfies
    `2 * margin ≤ sky_h`** (with `margin = 0.7 × gap`) and the gap is
    positive — that center lies in `[margin, sky_h - margin]` and the full
    gap interval stays strictly inside `(0, sky_h)`. At smaller resolutions
    (where `sky_h < 1.4 × gap`) the claimed bounds fail (see the
    counterexample). -/
theorem c5_spawn_center_bounds (sinq : ℚ → ℚ) (g : Game)
    (hst : g.state = State.Playing)
    (hgap : 0 < g.pipe_gap)
    (hsky : 2 * spawnMargin g ≤ (g.sky_h : ℚ)) :
    (g.update sinq).1.pipes =
      ((extPipes (physStep { g with frame := g.frame + 1 })).map
        (stepPipe g.pipe_speed g.bird_x g.pipe_w)).filter (keepPipe g.pipe_w) ∧
    (shouldSpawn (physStep { g with frame := g.frame + 1 }) = true →
      extPipes (physStep { g with frame := g.frame + 1 }) =
        g.pipes ++
          [⟨(g.pw : ℚ) + 2, spawnCenter (physStep { g with frame := g.frame + 1 }), false⟩]) ∧
    spawnMargin g ≤ spawnCenter (physStep { g with frame := g.frame + 1 }) ∧
    spawnCenter (physStep { g with frame := g.frame + 1 }) ≤ (g.sky_h : ℚ) - spawnMargin g ∧
    0 < spawnCenter (physStep { g with frame := g.frame + 1 }) - (g.pipe_gap : ℚ) / 2 ∧
    spawnCenter (physStep { g with frame := g.frame + 1 }) + (g.pipe_gap : ℚ) / 2 <
      (g.sky_h : ℚ) := by
  have hr0 : 0 ≤ pseudo_rand (g.frame + 1) := pseudo_rand_nonneg _
  have hr1 : pseudo_rand (g.frame + 1) ≤ 999 / 1000 := pseudo_rand_le _
  have hcenter : spawnCenter (physStep { g with frame := g.frame + 1 }) =
      spawnMargin g + pseudo_rand (g.frame + 1) *
        ((g.sky_h : ℚ) - spawnMargin g * 2) := rfl
  have hrange_nn : (0 : ℚ) ≤ (g.sky_h : ℚ) - spawnMargin g * 2 := by linarith
  have hprod_nn : 0 ≤ pseudo_rand (g.frame + 1) * ((g.sky_h : ℚ) - spawnMargin g * 2) :=
    mul_nonneg hr0 hrange_nn
  have hprod_le : pseudo_rand (g.frame + 1) * ((g.sky_h : ℚ) - spawnMargin g * 2) ≤
      (g.sky_h : ℚ) - spawnMargin g * 2 := by
    calc pseudo_rand (g.frame + 1) * ((g.sky_h : ℚ) - spawnMargin g * 2) ≤
        1 * ((g.sky_h : ℚ) - spawnMargin g * 2) :=
          mul_le_mul_of_nonneg_right (by linarith) hrange_nn
      _ = (g.sky_h : ℚ) - spawnMargin g * 2 := one_mul _
  have hgapq : (1 : ℚ) ≤ (g.pipe_gap : ℚ) := by exact_mod_cast hgap
  have hmargin : spawnMargin g = (g.pipe_gap : ℚ) * (7 / 10) := rfl
  refine ⟨?_, ?_, ?_, ?_, ?_, ?_⟩
  · rw [update_playing_eq sinq g hst]
    split <;> rfl
  · intro h
    unfold extPipes
    rw [if_pos h]
    rfl
  · rw [hcenter]; linarith
  · rw [hcenter]; linarith
  · rw [hcenter]; linarith
  · rw [hcenter]; linarith

/-- The concrete Playing-state game for the C5 witness (80×48, gap 15,
    margin 10.5, sky 40, so the safety condition holds). -/
def gPlay48 : Game := { Game.new 80 48 with state := State.Playing }

/-- C5, witness: the amended theorem at `gPlay48` (10.5 ≤ center ≤ 29.5,
    gap interval strictly inside the sky band). -/
theorem c5_spawn_witness :
    spawnMargin gPlay48 ≤ spawnCenter (physStep { gPlay48 with frame := gPlay48.frame + 1 }) ∧
    spawnCenter (physStep { gPlay48 with frame := gPlay48.frame + 1 }) ≤
      (gPlay48.sky_h : ℚ) - spawnMargin gPlay48 ∧
    0 < spawnCenter (physStep { gPlay48 with frame := gPlay48.frame + 1 }) -
      (gPlay48.pipe_gap : ℚ) / 2 ∧
    spawnCenter (physStep { gPlay48 with frame := gPlay48.frame + 1 }) +
      (gPlay48.pipe_gap : ℚ) / 2 < (gPlay48.sky_h : ℚ) := by
  have h := c5_spawn_center_bounds (fun _ => 0) gPlay48 rfl
    (by simp only [gPlay48, Game_new_80_48_eval]; norm_num)
    (by simp only [gPlay48, Game_new_80_48_eval, spawnMargin, Game.sky_h]; norm_num)
  exact ⟨h.2.2.1, h.2.2.2.1, h.2.2.2.2.1, h.2.2.2.2.2⟩


/-- The concrete small-resolution Playing-state game (80×16 pixel units,
    i.e. a terminal only 8 rows tall): `sky_h = 10 < 1.4 × 11 = gap margin
    band`, so the spawn interval `[margin, sky - margin]` is empty. -/
def gSmall : Game :=
  { Game.new 80 16 with
    state := State.Playing
    frame := 1 }

/-- C5, counterexample: at resolution 80×16 the very first spawned obstacle
    (seed `pseudo_rand 2 = 0.581`) has `gap_center = 22813/5000 ≈ 4.56`,
    whose gap interval pokes above the screen top
    (`center - gap/2 = -4687/5000 < 0`) and which lies strictly below the
    claimed lower bound `margin = 7.7`. -/
theorem c5_spawn_counterexample :
    ((gSmall.update (fun _ => 0)).1.pipes.getD 0 ⟨0, 0, false⟩).gap_center -
      (gSmall.pipe_gap : ℚ) / 2 < 0 ∧
    ((gSmall.update (fun _ => 0)).1.pipes.getD 0 ⟨0, 0, false⟩).gap_center <
      spawnMargin gSmall := by
  have hg : gSmall = ⟨80, 16, 4, 0, [], 0, 0, State.Playing, 1, 0, 0, false,
      1 / 3, 6, 5, 11, 88 / 5, 1 / 15, -2 / 3, 11 / 10, 168 / 5⟩ := by
    simp only [gSmall, Game_new_80_16_eval]
  have hpipes : (gSmall.update (fun _ => 0)).1.pipes = [⟨809 / 10, 22813 / 5000, false⟩] := by
    rw [hg, update_playing_eq _ _ rfl]
    rw [if_neg ?nocoll]
    case nocoll =>
      simp only [check_collision, postMove, movedPipes, nScoredOf, extPipes, shouldSpawn,
        newPipe, spawnCenter, spawnMargin, spawnRange, Game.sky_h, physStep, stepPipe,
        scoresNow, keepPipe, pseudo_rand_two, List.getLast?, List.map, List.filter,
        List.countP, List.countP.go, List.any, Game.update]
      norm_num [pseudo_rand_two]
    simp only [postMove, movedPipes, nScoredOf, extPipes, shouldSpawn, newPipe, spawnCenter,
      spawnMargin, spawnRange, Game.sky_h, physStep, stepPipe, scoresNow, keepPipe,
      List.getLast?, List.map, List.filter, List.countP, List.countP.go]
    norm_num [pseudo_rand_two]
  rw [hpipes]
  constructor
  · simp only [List.getD]
    rw [hg]
    norm_num
  · simp only [List.getD, spawnMargin]
    rw [hg]
    norm_num

-- ── Claim C3: per-pipe temporal scoring lemmas ──────────────────────────────

theorem stepPipe_x (sp bx : ℚ) (pw : ℕ) (p : Pipe) :
    (stepPipe sp bx pw p).x = p.x - sp := rfl

theorem pipeIter_x (sp bx : ℚ) (pw : ℕ) (p : Pipe) (i : ℕ) :
    ((stepPipe sp bx pw)^[i] p).x = p.x - (i : ℚ) * sp := by
  induction i with
  | zero => simp
  | succ i ih =>
    rw [Function.iterate_succ_apply', stepPipe_x, ih]
    push_cast
    ring

theorem pipeIter_x_antitone (sp bx : ℚ) (pw : ℕ) (p : Pipe) (hsp : 0 ≤ sp)
    {k l : ℕ} (hkl : k ≤ l) :
    ((stepPipe sp bx pw)^[l] p).x ≤ ((stepPipe sp bx pw)^[k] p).x := by
  rw [pipeIter_x, pipeIter_x]
  have h : (k : ℚ) * sp ≤ (l : ℚ) * sp :=
    mul_le_mul_of_nonneg_right (by exact_mod_cast hkl) hsp
  linarith

theorem stepPipe_scored (sp bx : ℚ) (pw : ℕ) (p : Pipe) :
    ((stepPipe sp bx pw p).scored = true) ↔
      (p.scored = true ∨ (stepPipe sp bx pw p).x + (pw : ℚ) < bx) := by
  simp only [stepPipe, Bool.or_eq_true, Bool.and_eq_true, Bool.not_eq_true',
    decide_eq_true_eq]
  constructor
  · rintro (h | ⟨-, h⟩)
    · exact Or.inl h
    · exact Or.inr h
  · rintro (h | h)
    · exact Or.inl h
    · by_cases hs : p.scored = true
      · exact Or.inl hs
      · exact Or.inr ⟨by simpa using hs, h⟩

theorem pipeIter_scored (sp bx : ℚ) (pw : ℕ) (p : Pipe) (hsp : 0 ≤ sp)
    (hs : p.scored = false) (i : ℕ) :
    (((stepPipe sp bx pw)^[i] p).scored = true) ↔
      (1 ≤ i ∧ ((stepPipe sp bx pw)^[i] p).x + (pw : ℚ) < bx) := by
  induction i with
  | zero => simp [hs]
  | succ i ih =>
    rw [Function.iterate_succ_apply', stepPipe_scored, ih]
    have hmono : ((stepPipe sp bx pw)^[i + 1] p).x ≤ ((stepPipe sp bx pw)^[i] p).x :=
      pipeIter_x_antitone sp bx pw p hsp (Nat.le_succ i)
    rw [Function.iterate_succ_apply'] at hmono
    constructor
    · rintro (⟨hi, hx⟩ | hx)
      · exact ⟨by omega, by linarith⟩
      · exact ⟨by omega, hx⟩
    · rintro ⟨-, hx⟩
      exact Or.inr hx

/-- C3: (a) a Playing-state update increments the score by exactly the
    number of pipes whose trailing edge newly passed the bird this tick,
    emits exactly that many Score events, and advances every pipe by
    `stepPipe`; (b) iterating `stepPipe` from an unscored pipe, the tick at
    which the pipe scores is **exactly** the first tick at which its trailing
    edge (`x + pipe_w`) has passed the bird's x — never an earlier tick — and
    two scoring ticks of the same pipe coincide, so a pipe never scores
    twice. -/
theorem c3_score_exactly_once :
    (∀ (sinq : ℚ → ℚ) (g : Game), g.state = State.Playing →
      ((g.update sinq).1.score =
        g.score + (extPipes (physStep { g with frame := g.frame + 1 })).countP
          (scoresNow g.pipe_speed g.bird_x g.pipe_w) ∧
       (g.update sinq).2.count GameEvent.Score =
        (extPipes (physStep { g with frame := g.frame + 1 })).countP
          (scoresNow g.pipe_speed g.bird_x g.pipe_w) ∧
       (g.update sinq).1.pipes =
        ((extPipes (physStep { g with frame := g.frame + 1 })).map
          (stepPipe g.pipe_speed g.bird_x g.pipe_w)).filter (keepPipe g.pipe_w))) ∧
    (∀ (sp bx : ℚ) (pw : ℕ) (p : Pipe), 0 ≤ sp → p.scored = false →
      (∀ i, scoresNow sp bx pw ((stepPipe sp bx pw)^[i] p) = true ↔
        (((stepPipe sp bx pw)^[i + 1] p).x + (pw : ℚ) < bx ∧
         ∀ j < i, ¬(((stepPipe sp bx pw)^[j + 1] p).x + (pw : ℚ) < bx))) ∧
      (∀ i j, scoresNow sp bx pw ((stepPipe sp bx pw)^[i] p) = true →
        scoresNow sp bx pw ((stepPipe sp bx pw)^[j] p) = true → i = j)) := by
  constructor
  · intro sinq g hst
    rw [update_playing_eq sinq g hst]
    have hcount : ∀ n : ℕ, ((if shouldSpawn (physStep { g with frame := g.frame + 1 })
        then [GameEvent.Whoosh] else []) ++
          (List.replicate n GameEvent.Score ++ [GameEvent.Death])).count GameEvent.Score = n := by
      intro n
      rw [List.count_append, List.count_append]
      split <;> simp [List.count_replicate, List.count_singleton, List.count_cons]
    have hcount2 : ∀ n : ℕ, ((if shouldSpawn (physStep { g with frame := g.frame + 1 })
        then [GameEvent.Whoosh] else []) ++
          List.replicate n GameEvent.Score).count GameEvent.Score = n := by
      intro n
      rw [List.count_append]
      split <;> simp [List.count_replicate, List.count_cons]
    split
    · exact ⟨rfl, hcount _, rfl⟩
    · exact ⟨rfl, hcount2 _, rfl⟩
  · intro sp bx pw p hsp hs
    have hiff : ∀ i, scoresNow sp bx pw ((stepPipe sp bx pw)^[i] p) = true ↔
        (((stepPipe sp bx pw)^[i + 1] p).x + (pw : ℚ) < bx ∧
         ∀ j < i, ¬(((stepPipe sp bx pw)^[j + 1] p).x + (pw : ℚ) < bx)) := by
      intro i
      have hstep : ((stepPipe sp bx pw)^[i] p).x - sp = ((stepPipe sp bx pw)^[i + 1] p).x := by
        rw [Function.iterate_succ_apply', stepPipe_x]
      simp only [scoresNow, Bool.and_eq_true, Bool.not_eq_true', decide_eq_true_eq, hstep]
      rw [show (((stepPipe sp bx pw)^[i] p).scored = false) ↔
          ¬(((stepPipe sp bx pw)^[i] p).scored = true) by simp]
      rw [pipeIter_scored sp bx pw p hsp hs i]
      constructor
      · rintro ⟨hns, hx⟩
        refine ⟨hx, ?_⟩
        intro j hj hxj
        apply hns
        refine ⟨by omega, ?_⟩
        have := pipeIter_x_antitone sp bx pw p hsp (by omega : j + 1 ≤ i)
        linarith
      · rintro ⟨hx, hfirst⟩
        refine ⟨?_, hx⟩
        rintro ⟨hi1, hxi⟩
        exact hfirst (i - 1) (by omega)
          (by rw [show i - 1 + 1 = i by omega]; exact hxi)
    refine ⟨hiff, ?_⟩
    intro i j hi hj
    rcases Nat.lt_trichotomy i j with h | h | h
    · exfalso
      exact ((hiff j).mp hj).2 i h ((hiff i).mp hi).1
    · exact h
    · exfalso
      exact ((hiff i).mp hi).2 j h ((hiff j).mp hj).1

/-- The concrete Playing-state game for the C3 witness: one unscored pipe
    at `x = 10`, just short of the bird, which scores on this tick. -/
def gScore : Game :=
  { Game.new 80 48 with
    state := State.Playing
    pipes := [⟨10, 20, false⟩] }

/-- C3, witness: the theorem applied at `gScore` — the update yields score 1
    and exactly one Score event — and at a concrete iterated pipe (speed 1,
    bird at 17, width 0, spawned at 18) which scores exactly on tick 1. -/
theorem c3_score_witness :
    (gScore.update (fun _ => 0)).1.score = 1 ∧
    (gScore.update (fun _ => 0)).2.count GameEvent.Score = 1 ∧
    scoresNow 1 17 0 ((stepPipe 1 17 0)^[1] ⟨18, 20, false⟩) = true := by
  have h := c3_score_exactly_once
  have hA := h.1 (fun _ => 0) gScore rfl
  have hcnt : (extPipes (physStep { gScore with frame := gScore.frame + 1 })).countP
      (scoresNow gScore.pipe_speed gScore.bird_x gScore.pipe_w) = 1 := by
    simp only [gScore, Game_new_80_48_eval, physStep, extPipes, shouldSpawn, newPipe,
      List.getLast?, spawnCenter, spawnMargin, spawnRange, Game.sky_h]
    norm_num [List.countP_cons, List.countP_nil, scoresNow]
  refine ⟨?_, ?_, ?_⟩
  · rw [hA.1, hcnt]
    rfl
  · rw [hA.2.1, hcnt]
  · have hB := (h.2 1 17 0 ⟨18, 20, false⟩ (by norm_num) rfl).1 1
    rw [hB]
    constructor
    · rw [pipeIter_x]
      norm_num
    · intro j hj
      have hj0 : j = 0 := by omega
      subst hj0
      rw [pipeIter_x]
      norm_num

/-- C4, witness: the theorem applied at seed 2 (equal-seed purity,
    non-negativity, and the strict upper bound). -/
theorem c4_pseudo_rand_witness :
    pseudo_rand 2 = pseudo_rand 2 ∧ 0 ≤ pseudo_rand 2 ∧ pseudo_rand 2 < 1 := by
  have h := c4_pseudo_rand_pure_and_in_range 2 2
  exact ⟨h.1 rfl, h.2.1, h.2.2.1⟩
